import Mathlib

/-!
Verification development for the DataMigration repository: a shallow
embedding of its ingestion and table-materialization pipeline.

Embedded source functions (strings are modelled as lists of characters,
pandas DataFrames as a structure of column names and rows of cells, the
SQL backend as a map from table names to tables):

* utils/utils.py clean_column_name      -> clean_column_name
* importer.py sanitize_table_name       -> sanitize_table_name
* importer.py sanitize_column_names     -> sanitize_column_names
* importer.py import_dataframes         -> import_dataframes
* file_handler.py read_file             -> read_file
* file_handler.py clean_dataframe       -> clean_dataframe
* utils/data_handler.py DataHandler.load_file -> dh_load_file
* utils/db_config.py create_table_from_df     -> create_table_from_df
* gui/main_window.py MainWindow.load_file     -> mw_load_file
* gui/main_window.py MainWindow.import_data   -> import_data
-/

/-! ## Character primitives -/

/-- Characters matched by the regex class a-zA-Z0-9_ used in
clean_column_name (utils/utils.py line 11). -/
def goodChar (c : Char) : Bool :=
  (decide ('a' ≤ c) && decide (c ≤ 'z')) ||
  (decide ('A' ≤ c) && decide (c ≤ 'Z')) ||
  (decide ('0' ≤ c) && decide (c ≤ '9')) ||
  (c == '_')

/-- Characters matched by the regex class backslash-s of Python (space, tab,
newline, carriage return, vertical tab, form feed) used in importer.py. -/
def isPySpace (c : Char) : Bool :=
  (c == ' ') || (c == '\t') || (c == '\n') || (c == '\r') ||
  (c.toNat == 11) || (c.toNat == 12)

/-- One character test used by the underscore-directed stages of
clean_column_name. -/
def isUnd (c : Char) : Bool := c == '_'

/-! ## Generic string-processing combinators (Python semantics) -/

/-- Python re.sub of a one-character run pattern: every maximal run of
characters satisfying p is replaced by a single underscore. The Bool
argument records whether the previous input character was part of a run. -/
def collapseRuns (p : Char → Bool) : Bool → List Char → List Char
  | _, [] => []
  | false, c :: rest =>
    if p c then '_' :: collapseRuns p true rest else c :: collapseRuns p false rest
  | true, c :: rest =>
    if p c then collapseRuns p true rest else c :: collapseRuns p false rest

/-- Removal of the trailing run of characters satisfying p (the right half
of Python str.strip). -/
def dropTrailing (p : Char → Bool) (l : List Char) : List Char :=
  l.foldr (fun c acc => if p c && acc.isEmpty then [] else c :: acc) []

/-- Python str.strip with character test p: drop the leading and the
trailing run of characters satisfying p. -/
def pyStrip (p : Char → Bool) (l : List Char) : List Char :=
  dropTrailing p (l.dropWhile p)

/-! ## The sanitizers of the repository -/

/-- Replacement stage of clean_column_name, the regex substitution of
every character outside a-zA-Z0-9_ by an underscore. -/
def replaceBad (l : List Char) : List Char :=
  l.map (fun c => if goodChar c then c else '_')

/-- clean_column_name (utils/utils.py lines 8 to 16): replace every
character outside a-zA-Z0-9_ with an underscore, collapse runs of
underscores to one, strip outer underscores, lower-case. Python str.lower
is applied to a string whose characters all lie in a-zA-Z0-9_ at that
point, where it agrees with Char.toLower. -/
def clean_column_name (s : String) : String :=
  String.mk ((pyStrip isUnd (collapseRuns isUnd false (replaceBad s.toList))).map Char.toLower)

/-- sanitize_table_name (importer.py lines 11 to 12): strip outer
whitespace, then replace every maximal whitespace run with one
underscore. -/
def sanitize_table_name (s : String) : String :=
  String.mk (collapseRuns isPySpace false (pyStrip isPySpace s.toList))

/-- sanitize_column_names (importer.py lines 7 to 8): the table-name
sanitizer applied to every column name. -/
def sanitize_column_names (cols : List String) : List String :=
  cols.map sanitize_table_name

/-! ## The sanitizer contract written from the claim wording, for C4 -/

/-- Replacement stage as the claim words it: every character outside the
set of letters, digits and underscore becomes an underscore. -/
def specReplace (l : List Char) : List Char :=
  l.map (fun c => if c.isAlpha || c.isDigit || c == '_' then c else '_')

/-- Collapsing stage as the claim words it: consecutive underscores
collapse to one (written as a right fold that keeps an underscore only
when the output so far does not already start with one). -/
def specCollapse (l : List Char) : List Char :=
  l.foldr (fun c acc => if c == '_' && (acc.headD ' ' == '_') then acc else c :: acc) []

/-- Stripping stage as the claim words it: leading underscores are
dropped, and trailing ones are dropped by reversing, dropping leading
ones, and reversing back. -/
def specStrip (l : List Char) : List Char :=
  ((l.dropWhile isUnd).reverse.dropWhile isUnd).reverse

/-- The sanitizer exactly as the claim describes it: replace, collapse,
strip, lower-case. -/
def specSanitize (s : String) : String :=
  String.mk ((specStrip (specCollapse (specReplace s.toList))).map Char.toLower)

/-! ## Observation predicates on character lists -/

/-- Whether the first character of the list satisfies p (false for the
empty list). -/
def headSat (p : Char → Bool) : List Char → Bool
  | [] => false
  | c :: _ => p c

/-- Whether the last character of the list satisfies p (false for the
empty list). -/
def lastSat (p : Char → Bool) (l : List Char) : Bool :=
  match l.getLast? with
  | none => false
  | some c => p c

/-- No two consecutive underscores occur in the list. -/
def noDouble : List Char → Bool
  | [] => true
  | [_] => true
  | a :: b :: rest => (!(isUnd a && isUnd b)) && noDouble (b :: rest)

/-- Characters allowed in a sanitized identifier: lowercase letters,
digits and underscore. -/
def outChar (c : Char) : Bool :=
  (decide ('a' ≤ c) && decide (c ≤ 'z')) ||
  (decide ('0' ≤ c) && decide (c ≤ '9')) ||
  (c == '_')

/-! ## Data model: cells and dataframes -/

/-- A cell value of a loaded dataset: the canonical absent value (Python
None), the floating-point not-a-number marker (numpy nan), the temporal
not-a-time marker (pandas NaT), or a string, integer, finite float
(modelled as a rational), or boolean value. -/
inductive Cell where
  | null : Cell
  | nan : Cell
  | naT : Cell
  | str (s : String) : Cell
  | int (n : Int) : Cell
  | float (q : Rat) : Cell
  | bool (b : Bool) : Cell
deriving DecidableEq, Repr

/-- A pandas DataFrame: column names and rows of cells. -/
structure Dataframe where
  columns : List String
  rows : List (List Cell)
deriving DecidableEq, Repr

/-- Parser-level na_values handling of pandas read_csv and read_excel: a
string cell equal to one of the configured tokens is read as NaN. -/
def naCell (tokens : List String) (c : Cell) : Cell :=
  match c with
  | Cell.str s => if tokens.contains s then Cell.nan else Cell.str s
  | c => c

/-- na_values replacement applied to a whole dataframe at parse time. -/
def applyNaValues (tokens : List String) (df : Dataframe) : Dataframe :=
  { columns := df.columns, rows := df.rows.map (fun r => r.map (naCell tokens)) }

/-- The na_values list configured in DataHandler.load_file
(utils/data_handler.py lines 18 and 26). -/
def dhNaTokens : List String := ["", "NA", "NULL"]

/-- The na_values list configured in read_file (file_handler.py lines 7
and 10). -/
def rfNaTokens : List String := [""]

/-- Cell-level content of df.where(pd.notnull(df), None) in
clean_dataframe (file_handler.py line 20) and of the NaT/NaN to None
replacement in create_table_from_df (utils/db_config.py lines 34 to 38):
the not-a-number and not-a-time markers become the canonical absent
value, everything else is unchanged. -/
def cleanCell (c : Cell) : Cell :=
  match c with
  | Cell.nan => Cell.null
  | Cell.naT => Cell.null
  | c => c

/-- Python str.strip() on a column name (clean_dataframe line 17). -/
def stripWsStr (s : String) : String := String.mk (pyStrip isPySpace s.toList)

/-- clean_dataframe (file_handler.py lines 15 to 20): strip spaces from
column names and convert NaN and NaT to None. -/
def clean_dataframe (df : Dataframe) : Dataframe :=
  { columns := df.columns.map stripWsStr,
    rows := df.rows.map (fun r => r.map cleanCell) }

/-- The Null Normalizer of the pipeline: the parse-level sentinel
replacement with the tokens configured in DataHandler.load_file followed
by the NaN/NaT-to-None normalization of clean_dataframe and
create_table_from_df. -/
def normalize_dataset (df : Dataframe) : Dataframe :=
  clean_dataframe (applyNaValues dhNaTokens df)

/-- The absent-value sentinels named by claim C6: empty string, the
tokens NA and NULL, the not-a-number and not-a-time markers, and the
canonical absent value itself. -/
def isAbsentSentinel (c : Cell) : Bool :=
  match c with
  | Cell.null => true
  | Cell.nan => true
  | Cell.naT => true
  | Cell.str s => (s == "") || ((s == "NA") || (s == "NULL"))
  | _ => false

/-! ## Path handling (os.path.splitext and pathlib Path) -/

/-- Index of the last occurrence of a character in a list, as Python
str.rfind restricted to single characters. -/
def lastIndexOf (l : List Char) (ch : Char) : Option Nat :=
  (List.range l.length).foldl (fun acc i => if l.getD i ' ' == ch then some i else acc) none

/-- os.path.splitext: split off the extension at the last dot of the
final path component, unless every character between the last separator
and that dot is itself a dot (leading dots of a hidden file). -/
def splitext (p : String) : String × String :=
  let l := p.toList
  let sepIndex : Int := match lastIndexOf l '/' with | some i => (i : Int) | none => -1
  let dotIndex : Int := match lastIndexOf l '.' with | some i => (i : Int) | none => -1
  if sepIndex < dotIndex ∧
      (List.range l.length).any
        (fun j => decide (sepIndex < (j : Int)) && decide ((j : Int) < dotIndex) &&
          !(l.getD j ' ' == '.')) then
    (String.mk (l.take dotIndex.toNat), String.mk (l.drop dotIndex.toNat))
  else (p, "")

/-- os.path.basename: the part after the last separator. -/
def basename (p : String) : String :=
  match lastIndexOf p.toList '/' with
  | some i => String.mk (p.toList.drop (i + 1))
  | none => p

/-- pathlib Path.suffix: the extension of the final component, empty when
the only dot is the leading or the final character of the name. -/
def pathSuffix (p : String) : String :=
  let name := (basename p).toList
  match lastIndexOf name '.' with
  | some i => if 0 < i ∧ i < name.length - 1 then String.mk (name.drop i) else ""
  | none => ""

/-- pathlib Path.stem: the final component without its suffix. -/
def pathStem (p : String) : String :=
  let name := (basename p).toList
  match lastIndexOf name '.' with
  | some i => if 0 < i ∧ i < name.length - 1 then String.mk (name.take i) else String.mk name
  | none => String.mk name

/-- Python str.lower on the ASCII strings that extensions are. -/
def lowerStr (s : String) : String := String.mk (s.toList.map Char.toLower)

/-! ## Loaders -/

/-- The parsed content of an input file: a single table for a CSV file,
or named sheets in file order for a spreadsheet. -/
inductive FileContent where
  | csv (df : Dataframe) : FileContent
  | excel (sheets : List (String × Dataframe)) : FileContent
deriving DecidableEq, Repr

/-- read_file (file_handler.py lines 4 to 13): dispatch on the lowered
extension; CSV gives one dataset keyed by the file stem, a spreadsheet
one per sheet keyed by sheet name; anything else raises ValueError
(modelled as the error value carrying the message). A file whose content
does not parse as the extension demands is a parse failure. -/
def read_file (path : String) (content : FileContent) :
    Except String (List (String × Dataframe)) :=
  let ext := lowerStr (splitext path).2
  if ext == ".csv" then
    match content with
    | FileContent.csv df =>
      Except.ok [((splitext (basename path)).1, clean_dataframe (applyNaValues rfNaTokens df))]
    | _ => Except.error "ParseFailure"
  else if (ext == ".xls") || (ext == ".xlsx") then
    match content with
    | FileContent.excel sheets =>
      Except.ok (sheets.map (fun q => (q.1, clean_dataframe (applyNaValues rfNaTokens q.2))))
    | _ => Except.error "ParseFailure"
  else Except.error "Unsupported file type"

/-- One line sent to the logger. -/
inductive LogLine where
  | info (msg : String) : LogLine
  | error (msg : String) : LogLine
deriving DecidableEq, Repr

/-- The mutable state of a DataHandler instance: its dataframes dict (an
association list in insertion order) and the lines its logger received. -/
structure HandlerState where
  dataframes : List (String × Dataframe)
  logs : List LogLine
deriving DecidableEq, Repr

/-- Python dict assignment d[k] = v: overwrite in place when the key
exists, append otherwise. -/
def updateAssoc (l : List (String × Dataframe)) (k : String) (v : Dataframe) :
    List (String × Dataframe) :=
  if l.any (fun q => q.1 == k) then l.map (fun q => if q.1 == k then (k, v) else q)
  else l ++ [(k, v)]

/-- Python dict lookup. -/
def lookupAssoc (l : List (String × Dataframe)) (k : String) : Option Dataframe :=
  (l.find? (fun q => q.1 == k)).map (fun q => q.2)

/-- DataHandler.load_file (utils/data_handler.py lines 11 to 35): loads a
CSV file into the dataframes dict under the file stem, or every sheet of
a spreadsheet under its sheet name, logs one success line, and returns
the whole dict; a path with any other extension matches no branch, so
the method returns the accumulated dict unchanged without raising and
without logging. A pandas parse error is logged and re-raised (modelled
as the error value). -/
def dh_load_file (st : HandlerState) (path : String) (content : FileContent) :
    Except String (HandlerState × List (String × Dataframe)) :=
  let file_ext := lowerStr (pathSuffix path)
  let file_name := pathStem path
  if file_ext == ".csv" then
    match content with
    | FileContent.csv df =>
      let df2 := applyNaValues dhNaTokens df
      let st2 : HandlerState :=
        { dataframes := updateAssoc st.dataframes file_name df2,
          logs := st.logs ++ [LogLine.info ("Successfully loaded CSV file: " ++ file_name)] }
      Except.ok (st2, st2.dataframes)
    | _ => Except.error ("Error loading file " ++ path)
  else if (file_ext == ".xlsx") || (file_ext == ".xls") then
    match content with
    | FileContent.excel sheets =>
      let st2 : HandlerState :=
        { dataframes :=
            sheets.foldl (fun acc q => updateAssoc acc q.1 (applyNaValues dhNaTokens q.2))
              st.dataframes,
          logs := st.logs ++ [LogLine.info ("Successfully loaded Excel file: " ++ file_name)] }
      Except.ok (st2, st2.dataframes)
    | _ => Except.error ("Error loading file " ++ path)
  else Except.ok (st, st.dataframes)

/-- MainWindow.load_file (gui/main_window.py lines 362 to 388): resets
self.dataframes to empty, then keys a CSV dataset under the constant
string CSV Data, or every sheet under its sheet name; other extensions
leave the fresh empty dict. -/
def mw_load_file (path : String) (content : FileContent) :
    Except String (List (String × Dataframe)) :=
  let file_extension := lowerStr (pathSuffix path)
  if file_extension == ".csv" then
    match content with
    | FileContent.csv df => Except.ok [("CSV Data", df)]
    | _ => Except.error "Failed to load file"
  else if (file_extension == ".xlsx") || (file_extension == ".xls") then
    match content with
    | FileContent.excel sheets => Except.ok sheets
    | _ => Except.error "Failed to load file"
  else Except.ok []

/-! ## The SQL backend and the two materializers -/

/-- The relational backend: a map from table names to tables. -/
def Database : Type := String → Option Dataframe

/-- pandas to_sql with if_exists replace: drop and recreate the table
with exactly the given contents. -/
def dbSet (db : Database) (name : String) (t : Dataframe) : Database :=
  fun k => if k == name then some t else db k

/-- pandas to_sql with if_exists append: add the rows to the existing
table (created with the batch rows when absent). -/
def dbAppend (db : Database) (name : String) (batch : List (List Cell)) : Database :=
  match db name with
  | some t => dbSet db name { columns := t.columns, rows := t.rows ++ batch }
  | none => dbSet db name { columns := [], rows := batch }

/-- The backend with no tables. -/
def emptyDb : Database := fun _ => none

/-- The dataframe as import_dataframes writes it: sanitized column names,
unchanged rows. -/
def toImportedTable (df : Dataframe) : Dataframe :=
  { columns := sanitize_column_names df.columns, rows := df.rows }

/-- The database effect of import_dataframes alone: one replace write per
dict entry. -/
def importTables (db : Database) (dfs_dict : List (String × Dataframe)) : Database :=
  dfs_dict.foldl (fun d q => dbSet d (sanitize_table_name q.1) (toImportedTable q.2)) db

/-- import_dataframes (importer.py lines 15 to 26): for every entry of
the dict, sanitize the table name and the column names and write the
whole dataframe with replace semantics, collecting one summary line per
table. -/
def import_dataframes (engine : Database) (dfs_dict : List (String × Dataframe)) :
    Database × List String :=
  dfs_dict.foldl
    (fun acc q =>
      let table_name := sanitize_table_name q.1
      (dbSet acc.1 table_name (toImportedTable q.2),
       acc.2 ++ ["Imported " ++ toString q.2.rows.length ++ " rows into " ++ table_name]))
    (engine, [])

/-- Column cleaning of create_table_from_df (utils/db_config.py line 31):
spaces and hyphens become underscores. -/
def ctfdColumns (cols : List String) : List String :=
  cols.map (fun col => String.mk (col.toList.map (fun ch => if (ch == ' ') || (ch == '-') then '_' else ch)))

/-- create_table_from_df (utils/db_config.py lines 28 to 46): clean the
column names, normalize NaN and NaT to None, and write the whole
dataframe with to_sql replace semantics, which inserts all its rows. -/
def create_table_from_df (db : Database) (df : Dataframe) (table_name : String) : Database :=
  dbSet db table_name
    { columns := ctfdColumns df.columns, rows := df.rows.map (fun r => r.map cleanCell) }

/-- The batch start offsets range(0, total_rows, 1000) of
MainWindow.import_data (gui/main_window.py line 487). -/
def batchStarts (total_rows : Nat) : List Nat :=
  (List.range ((total_rows + 999) / 1000)).map (fun i => i * 1000)

/-- The batches df.iloc of MainWindow.import_data slices from the rows. -/
def batchesOf (rows : List (List Cell)) : List (List (List Cell)) :=
  (batchStarts rows.length).map (fun i => (rows.drop i).take 1000)

/-- MainWindow.import_data (gui/main_window.py lines 440 to 535): clean
the sheet name into the table name and the column names, create the
table through create_table_from_df (whose to_sql replace call already
inserts every row), then append the rows again in batches of 1000,
emitting progress values 0 at the start, 20 after table creation,
int(rows_processed / total_rows * 80) + 20 after each batch (exact
integer arithmetic in the model), and a final 100. Returns the backend
and the emitted progress sequence. -/
def importBatchStep (table_name : String) (rows : List (List Cell))
    (acc : Database × Nat × List Nat) (i : Nat) : Database × Nat × List Nat :=
  let batch := (rows.drop i).take 1000
  let db2 := dbAppend acc.1 table_name batch
  let rows_processed := acc.2.1 + batch.length
  (db2, rows_processed, acc.2.2 ++ [rows_processed * 80 / rows.length + 20])

def import_data (db : Database) (current_sheet : String) (df : Dataframe) :
    Database × List Nat :=
  let table_name := clean_column_name current_sheet
  let df2 : Dataframe := { columns := df.columns.map clean_column_name, rows := df.rows }
  let db1 := create_table_from_df db df2 table_name
  let total_rows := df2.rows.length
  let result := (batchStarts total_rows).foldl (importBatchStep table_name df2.rows) (db1, 0, [])
  (result.1, 0 :: 20 :: (result.2.2 ++ [100]))

/-- The progress values reported after each batch, as a function of the
row count alone: after batch i the rows written so far are
min((i+1)*1000, total_rows). -/
def importProgress (total_rows : Nat) : List Nat :=
  (List.range ((total_rows + 999) / 1000)).map
    (fun i => min ((i + 1) * 1000) total_rows * 80 / total_rows + 20)

/-- Whether a load returned normally rather than raising. -/
def exceptIsOk {e a : Type} (x : Except e a) : Bool :=
  match x with
  | Except.ok _ => true
  | Except.error _ => false

/-! ## Concrete inputs used by witnesses and counterexamples -/

/-- A dataframe with no columns and no rows. -/
def emptyDf : Dataframe := { columns := [], rows := [] }

/-- A one-row dataset, the failing input of claim C1. -/
def sheetDf : Dataframe := { columns := ["id"], rows := [[Cell.int 1]] }

/-- A dataset of 2500 rows, the scenario input of claim C7. -/
def df2500 : Dataframe := { columns := [], rows := List.replicate 2500 [] }

/-- First dataset loaded in the C8 counterexample. -/
def dfA : Dataframe := { columns := ["x"], rows := [[Cell.int 1]] }

/-- Second dataset loaded in the C8 counterexample. -/
def dfB : Dataframe := { columns := ["y"], rows := [[Cell.int 2]] }

/-- The handler state after loading a.csv into a fresh handler. -/
def stA : HandlerState :=
  { dataframes := [("a", applyNaValues dhNaTokens dfA)],
    logs := [LogLine.info "Successfully loaded CSV file: a"] }

/-- A handler state holding one dataset from an earlier call, used by the
C2 counterexample and witness. -/
def stPrior : HandlerState :=
  { dataframes := [("prior", dfA)], logs := [] }

/-! ## Character-level conversion lemmas -/

theorem charLe_toNat (a c : Char) : (a ≤ c) ↔ a.toNat ≤ c.toNat := by
  rw [Char.le_def, UInt32.le_def, BitVec.le_def]
  exact Iff.rfl

theorem uintGe_toNat (c : Char) (n : UInt32) : (c.val ≥ n) ↔ n.toNat ≤ c.toNat := by
  rw [ge_iff_le, UInt32.le_def, BitVec.le_def]
  exact Iff.rfl

theorem uintLe_toNat (c : Char) (n : UInt32) : (c.val ≤ n) ↔ c.toNat ≤ n.toNat := by
  rw [UInt32.le_def, BitVec.le_def]
  exact Iff.rfl

theorem toNat_ofNat_valid (n : Nat) (h : n.isValidChar) : (Char.ofNat n).toNat = n := by
  unfold Char.ofNat
  rw [dif_pos h]
  rfl

theorem char_toNat_inj {a b : Char} (h : a.toNat = b.toNat) : a = b := by
  apply Char.ext
  exact UInt32.ext h

theorem isUnd_iff {c : Char} : isUnd c = true ↔ c.toNat = 95 := by
  unfold isUnd
  rw [beq_iff_eq]
  constructor
  · intro h; rw [h]; rfl
  · intro h; exact char_toNat_inj h

theorem goodChar_iff {c : Char} :
    goodChar c = true ↔
      ((97 ≤ c.toNat ∧ c.toNat ≤ 122) ∨ (65 ≤ c.toNat ∧ c.toNat ≤ 90) ∨
       (48 ≤ c.toNat ∧ c.toNat ≤ 57) ∨ c.toNat = 95) := by
  unfold goodChar
  simp only [Bool.or_eq_true, Bool.and_eq_true, decide_eq_true_eq, charLe_toNat]
  rw [show ('a' : Char).toNat = 97 from rfl, show ('z' : Char).toNat = 122 from rfl,
      show ('A' : Char).toNat = 65 from rfl, show ('Z' : Char).toNat = 90 from rfl,
      show ('0' : Char).toNat = 48 from rfl, show ('9' : Char).toNat = 57 from rfl,
      show (c == '_') = isUnd c from rfl, isUnd_iff]
  tauto

theorem outChar_iff {c : Char} :
    outChar c = true ↔
      ((97 ≤ c.toNat ∧ c.toNat ≤ 122) ∨ (48 ≤ c.toNat ∧ c.toNat ≤ 57) ∨ c.toNat = 95) := by
  unfold outChar
  simp only [Bool.or_eq_true, Bool.and_eq_true, decide_eq_true_eq, charLe_toNat]
  rw [show ('a' : Char).toNat = 97 from rfl, show ('z' : Char).toNat = 122 from rfl,
      show ('0' : Char).toNat = 48 from rfl, show ('9' : Char).toNat = 57 from rfl,
      show (c == '_') = isUnd c from rfl, isUnd_iff]
  tauto

theorem isAlpha_iff {c : Char} :
    c.isAlpha = true ↔ (65 ≤ c.toNat ∧ c.toNat ≤ 90) ∨ (97 ≤ c.toNat ∧ c.toNat ≤ 122) := by
  unfold Char.isAlpha Char.isUpper Char.isLower
  simp only [Bool.or_eq_true, Bool.and_eq_true, decide_eq_true_eq, uintGe_toNat, uintLe_toNat]
  exact Iff.rfl

theorem isDigit_iff {c : Char} : c.isDigit = true ↔ 48 ≤ c.toNat ∧ c.toNat ≤ 57 := by
  unfold Char.isDigit
  simp only [Bool.and_eq_true, decide_eq_true_eq, uintGe_toNat, uintLe_toNat]
  exact Iff.rfl

theorem toLower_eq_self {c : Char} (h : ¬(65 ≤ c.toNat ∧ c.toNat ≤ 90)) :
    Char.toLower c = c := by
  unfold Char.toLower
  exact if_neg h

theorem toLower_toNat_upper {c : Char} (h : 65 ≤ c.toNat ∧ c.toNat ≤ 90) :
    (Char.toLower c).toNat = c.toNat + 32 := by
  unfold Char.toLower
  rw [if_pos h]
  exact toNat_ofNat_valid _ (Or.inl (by omega))

theorem isUnd_toLower {c : Char} : isUnd (Char.toLower c) = isUnd c := by
  by_cases h : 65 ≤ c.toNat ∧ c.toNat ≤ 90
  · have h1 : (Char.toLower c).toNat = c.toNat + 32 := toLower_toNat_upper h
    have h2 : isUnd (Char.toLower c) = false := by
      cases h3 : isUnd (Char.toLower c)
      · rfl
      · exact absurd (isUnd_iff.mp h3) (by omega)
    have h4 : isUnd c = false := by
      cases h5 : isUnd c
      · rfl
      · exact absurd (isUnd_iff.mp h5) (by omega)
    rw [h2, h4]
  · rw [toLower_eq_self h]

theorem outChar_toLower {c : Char} (h : goodChar c = true) :
    outChar (Char.toLower c) = true := by
  rcases goodChar_iff.mp h with h1 | h1 | h1 | h1
  · rw [toLower_eq_self (by omega)]; exact outChar_iff.mpr (Or.inl h1)
  · exact outChar_iff.mpr (Or.inl (by rw [toLower_toNat_upper h1]; omega))
  · rw [toLower_eq_self (by omega)]; exact outChar_iff.mpr (Or.inr (Or.inl h1))
  · rw [toLower_eq_self (by omega)]; exact outChar_iff.mpr (Or.inr (Or.inr h1))

theorem toLower_outChar_id {c : Char} (h : outChar c = true) : Char.toLower c = c := by
  rcases outChar_iff.mp h with h1 | h1 | h1 <;> exact toLower_eq_self (by omega)

theorem goodChar_of_outChar {c : Char} (h : outChar c = true) : goodChar c = true := by
  rcases outChar_iff.mp h with h1 | h1 | h1
  · exact goodChar_iff.mpr (Or.inl h1)
  · exact goodChar_iff.mpr (Or.inr (Or.inr (Or.inl h1)))
  · exact goodChar_iff.mpr (Or.inr (Or.inr (Or.inr h1)))

/-! ## Stage lemmas for the sanitizer pipeline -/

theorem noDouble_cons (c : Char) (l : List Char) :
    noDouble (c :: l) = ((!(isUnd c && headSat isUnd l)) && noDouble l) := by
  cases l with
  | nil => simp [noDouble, headSat]
  | cons b rest => rfl

theorem collapseRuns_false_cons (p : Char → Bool) (c : Char) (rest : List Char) :
    collapseRuns p false (c :: rest) =
      if p c then '_' :: collapseRuns p true rest else c :: collapseRuns p false rest := rfl

theorem collapseRuns_true_cons (p : Char → Bool) (c : Char) (rest : List Char) :
    collapseRuns p true (c :: rest) =
      if p c then collapseRuns p true rest else c :: collapseRuns p false rest := rfl

theorem replaceBad_all_good (l : List Char) : (replaceBad l).all goodChar = true := by
  rw [List.all_eq_true]
  intro x hx
  rcases List.mem_map.mp hx with ⟨c, _, rfl⟩
  by_cases h : goodChar c = true
  · rw [if_pos h]; exact h
  · rw [if_neg h]; decide

theorem collapseRuns_all (p q : Char → Bool) (hq : q '_' = true) :
    ∀ (l : List Char) (b : Bool), l.all q = true → (collapseRuns p b l).all q = true := by
  intro l
  induction l with
  | nil => intro b _; cases b <;> rfl
  | cons c rest ih =>
    intro b hall
    rw [List.all_cons, Bool.and_eq_true] at hall
    by_cases hc : p c = true
    · cases b
      · rw [collapseRuns_false_cons, if_pos hc, List.all_cons, Bool.and_eq_true]
        exact ⟨hq, ih true hall.2⟩
      · rw [collapseRuns_true_cons, if_pos hc]
        exact ih true hall.2
    · cases b
      · rw [collapseRuns_false_cons, if_neg hc, List.all_cons, Bool.and_eq_true]
        exact ⟨hall.1, ih false hall.2⟩
      · rw [collapseRuns_true_cons, if_neg hc, List.all_cons, Bool.and_eq_true]
        exact ⟨hall.1, ih false hall.2⟩

theorem collapseRuns_no_space :
    ∀ (l : List Char) (b : Bool), (collapseRuns isPySpace b l).all (fun c => !isPySpace c) = true := by
  intro l
  induction l with
  | nil => intro b; cases b <;> rfl
  | cons c rest ih =>
    intro b
    by_cases hc : isPySpace c = true
    · cases b
      · rw [collapseRuns_false_cons, if_pos hc, List.all_cons, Bool.and_eq_true]
        exact ⟨by decide, ih true⟩
      · rw [collapseRuns_true_cons, if_pos hc]
        exact ih true
    · cases b
      · rw [collapseRuns_false_cons, if_neg hc, List.all_cons, Bool.and_eq_true]
        refine ⟨?_, ih false⟩
        rw [Bool.not_eq_true] at hc
        rw [hc]
        rfl
      · rw [collapseRuns_true_cons, if_neg hc, List.all_cons, Bool.and_eq_true]
        refine ⟨?_, ih false⟩
        rw [Bool.not_eq_true] at hc
        rw [hc]
        rfl

theorem collapseRuns_und_invariant :
    ∀ l : List Char,
      noDouble (collapseRuns isUnd false l) = true ∧
      noDouble (collapseRuns isUnd true l) = true ∧
      headSat isUnd (collapseRuns isUnd true l) = false := by
  intro l
  induction l with
  | nil => exact ⟨rfl, rfl, rfl⟩
  | cons c rest ih =>
    obtain ⟨ih0, ih1, ihh⟩ := ih
    by_cases hc : isUnd c = true
    · refine ⟨?_, ?_, ?_⟩
      · rw [collapseRuns_false_cons, if_pos hc, noDouble_cons, ihh, ih1]
        rfl
      · rw [collapseRuns_true_cons, if_pos hc]
        exact ih1
      · rw [collapseRuns_true_cons, if_pos hc]
        exact ihh
    · have hc' : isUnd c = false := Bool.not_eq_true _ |>.mp hc
      refine ⟨?_, ?_, ?_⟩
      · rw [collapseRuns_false_cons, if_neg hc, noDouble_cons, hc', ih0]
        rfl
      · rw [collapseRuns_true_cons, if_neg hc, noDouble_cons, hc', ih0]
        rfl
      · rw [collapseRuns_true_cons, if_neg hc]
        exact hc'

theorem lastSat_cons_cons (p : Char → Bool) (a b : Char) (l : List Char) :
    lastSat p (a :: b :: l) = lastSat p (b :: l) := by
  unfold lastSat
  rw [List.getLast?_cons_cons]

theorem headSat_dropWhile (p : Char → Bool) (l : List Char) :
    headSat p (l.dropWhile p) = false := by
  induction l with
  | nil => rfl
  | cons c rest ih =>
    by_cases hc : p c = true
    · rw [List.dropWhile_cons_of_pos hc]
      exact ih
    · rw [List.dropWhile_cons_of_neg hc]
      exact Bool.not_eq_true _ |>.mp hc

theorem noDouble_dropWhile (p : Char → Bool) (l : List Char) (h : noDouble l = true) :
    noDouble (l.dropWhile p) = true := by
  induction l with
  | nil => rfl
  | cons c rest ih =>
    rw [noDouble_cons, Bool.and_eq_true] at h
    by_cases hc : p c = true
    · rw [List.dropWhile_cons_of_pos hc]
      exact ih h.2
    · rw [List.dropWhile_cons_of_neg hc, noDouble_cons, Bool.and_eq_true]
      exact ⟨h.1, h.2⟩

theorem all_dropWhile (p q : Char → Bool) (l : List Char) (h : l.all q = true) :
    (l.dropWhile p).all q = true := by
  rw [List.all_eq_true] at h ⊢
  intro x hx
  exact h x (List.dropWhile_sublist p |>.mem hx)

theorem dropTrailing_cons (p : Char → Bool) (c : Char) (l : List Char) :
    dropTrailing p (c :: l) =
      if p c && (dropTrailing p l).isEmpty then [] else c :: dropTrailing p l := rfl

theorem headSat_dropTrailing (p q : Char → Bool) (l : List Char)
    (h : headSat q (dropTrailing p l) = true) : headSat q l = true := by
  cases l with
  | nil => exact h
  | cons c rest =>
    rw [dropTrailing_cons] at h
    by_cases hb : (p c && (dropTrailing p rest).isEmpty) = true
    · rw [if_pos hb] at h
      exact absurd h (by simp [headSat])
    · rw [if_neg hb] at h
      exact h

theorem lastSat_dropTrailing (p : Char → Bool) (l : List Char) :
    lastSat p (dropTrailing p l) = false := by
  induction l with
  | nil => rfl
  | cons c rest ih =>
    rw [dropTrailing_cons]
    by_cases hb : (p c && (dropTrailing p rest).isEmpty) = true
    · rw [if_pos hb]
      rfl
    · rw [if_neg hb]
      cases hdt : dropTrailing p rest with
      | nil =>
        rw [hdt] at hb
        have hpc : p c = false := by
          cases hpc : p c
          · rfl
          · exact absurd (by rw [hpc]; rfl) hb
        unfold lastSat
        rw [show ([c] : List Char).getLast? = some c from rfl]
        exact hpc
      | cons x xs =>
        rw [lastSat_cons_cons]
        rw [hdt] at ih
        exact ih

theorem noDouble_dropTrailing (p : Char → Bool) (l : List Char) (h : noDouble l = true) :
    noDouble (dropTrailing p l) = true := by
  induction l with
  | nil => rfl
  | cons c rest ih =>
    rw [noDouble_cons, Bool.and_eq_true] at h
    rw [dropTrailing_cons]
    by_cases hb : (p c && (dropTrailing p rest).isEmpty) = true
    · rw [if_pos hb]
      rfl
    · rw [if_neg hb, noDouble_cons, Bool.and_eq_true]
      refine ⟨?_, ih h.2⟩
      by_cases hh : headSat isUnd (dropTrailing p rest) = true
      · have hr : headSat isUnd rest = true := headSat_dropTrailing p isUnd rest hh
        have hc0 : isUnd c = false := by
          cases hic : isUnd c
          · rfl
          · exfalso
            have h1 := h.1
            rw [hic, hr] at h1
            exact absurd h1 (by decide)
        rw [hh, hc0]
        rfl
      · rw [Bool.not_eq_true] at hh
        rw [hh, Bool.and_false]
        rfl

theorem all_dropTrailing (p q : Char → Bool) (l : List Char) (h : l.all q = true) :
    (dropTrailing p l).all q = true := by
  induction l with
  | nil => rfl
  | cons c rest ih =>
    rw [List.all_cons, Bool.and_eq_true] at h
    rw [dropTrailing_cons]
    by_cases hb : (p c && (dropTrailing p rest).isEmpty) = true
    · rw [if_pos hb]
      rfl
    · rw [if_neg hb, List.all_cons, Bool.and_eq_true]
      exact ⟨h.1, ih h.2⟩

theorem dropWhile_id (p : Char → Bool) (l : List Char) (h : headSat p l = false) :
    l.dropWhile p = l := by
  cases l with
  | nil => rfl
  | cons c rest =>
    exact List.dropWhile_cons_of_neg (by rw [show headSat p (c :: rest) = p c from rfl] at h; rw [h]; exact Bool.false_ne_true)

theorem dropTrailing_id (p : Char → Bool) (l : List Char) (h : lastSat p l = false) :
    dropTrailing p l = l := by
  induction l with
  | nil => rfl
  | cons c rest ih =>
    rw [dropTrailing_cons]
    cases rest with
    | nil =>
      have hpc : p c = false := by
        unfold lastSat at h
        rw [show ([c] : List Char).getLast? = some c from rfl] at h
        exact h
      rw [hpc]
      rfl
    | cons x xs =>
      rw [lastSat_cons_cons] at h
      rw [ih h]
      rw [if_neg (by rw [show (x :: xs).isEmpty = false from rfl, Bool.and_false]; exact Bool.false_ne_true)]

theorem pyStrip_head (p : Char → Bool) (l : List Char) : headSat p (pyStrip p l) = false := by
  unfold pyStrip
  by_cases hh : headSat p (dropTrailing p (l.dropWhile p)) = true
  · exact absurd (headSat_dropTrailing p p (l.dropWhile p) hh)
      (by rw [headSat_dropWhile]; exact Bool.false_ne_true)
  · exact Bool.not_eq_true _ |>.mp hh

theorem pyStrip_last (p : Char → Bool) (l : List Char) : lastSat p (pyStrip p l) = false :=
  lastSat_dropTrailing p (l.dropWhile p)

theorem pyStrip_noDouble (p : Char → Bool) (l : List Char) (h : noDouble l = true) :
    noDouble (pyStrip p l) = true :=
  noDouble_dropTrailing p _ (noDouble_dropWhile p l h)

theorem pyStrip_all (p q : Char → Bool) (l : List Char) (h : l.all q = true) :
    (pyStrip p l).all q = true :=
  all_dropTrailing p q _ (all_dropWhile p q l h)

theorem pyStrip_id (p : Char → Bool) (l : List Char)
    (hh : headSat p l = false) (hl : lastSat p l = false) : pyStrip p l = l := by
  unfold pyStrip
  rw [dropWhile_id p l hh]
  exact dropTrailing_id p l hl

/-! ## Lower-casing stage lemmas -/

theorem map_toLower_all_out (l : List Char) (h : l.all goodChar = true) :
    (l.map Char.toLower).all outChar = true := by
  rw [List.all_eq_true] at h ⊢
  intro x hx
  rcases List.mem_map.mp hx with ⟨c, hc, rfl⟩
  exact outChar_toLower (h c hc)

theorem headSat_map_toLower (l : List Char) :
    headSat isUnd (l.map Char.toLower) = headSat isUnd l := by
  cases l with
  | nil => rfl
  | cons c rest => exact isUnd_toLower

theorem lastSat_map_toLower (l : List Char) :
    lastSat isUnd (l.map Char.toLower) = lastSat isUnd l := by
  unfold lastSat
  rw [List.getLast?_map]
  cases l.getLast? with
  | none => rfl
  | some c => exact isUnd_toLower

theorem noDouble_map_toLower (l : List Char) :
    noDouble (l.map Char.toLower) = noDouble l := by
  induction l with
  | nil => rfl
  | cons c rest ih =>
    rw [List.map_cons, noDouble_cons, noDouble_cons, ih, headSat_map_toLower, isUnd_toLower]

theorem map_toLower_id (l : List Char) (h : l.all outChar = true) :
    l.map Char.toLower = l := by
  rw [List.all_eq_true] at h
  have : ∀ c ∈ l, Char.toLower c = c := fun c hc => toLower_outChar_id (h c hc)
  rw [List.map_congr_left this]
  exact List.map_id l

theorem replaceBad_id (l : List Char) (h : l.all goodChar = true) : replaceBad l = l := by
  rw [List.all_eq_true] at h
  unfold replaceBad
  have : ∀ c ∈ l, (if goodChar c then c else '_') = c := fun c hc => if_pos (h c hc)
  rw [List.map_congr_left this]
  exact List.map_id l

/-! ## Identity of the collapse stage on already collapsed input -/

theorem collapseRuns_und_id (l : List Char) (h : noDouble l = true) :
    collapseRuns isUnd false l = l ∧
      (headSat isUnd l = false → collapseRuns isUnd true l = l) := by
  induction l with
  | nil => exact ⟨rfl, fun _ => rfl⟩
  | cons c rest ih =>
    rw [noDouble_cons, Bool.and_eq_true] at h
    obtain ⟨ihf, iht⟩ := ih h.2
    by_cases hc : isUnd c = true
    · have hrest : headSat isUnd rest = false := by
        have h1 := h.1
        cases hhr : headSat isUnd rest
        · rfl
        · rw [hc, hhr] at h1
          exact absurd h1 (by decide)
      constructor
      · rw [collapseRuns_false_cons, if_pos hc, iht hrest]
        have : c = '_' := beq_iff_eq.mp hc
        rw [this]
      · intro hhead
        rw [show headSat isUnd (c :: rest) = isUnd c from rfl] at hhead
        rw [hc] at hhead
        exact absurd hhead (by decide)
    · constructor
      · rw [collapseRuns_false_cons, if_neg hc, ihf]
      · intro _
        rw [collapseRuns_true_cons, if_neg hc, ihf]

theorem collapseRuns_nospace_id (l : List Char)
    (h : l.all (fun c => !isPySpace c) = true) :
    ∀ b : Bool, collapseRuns isPySpace b l = l := by
  induction l with
  | nil => intro b; cases b <;> rfl
  | cons c rest ih =>
    rw [List.all_cons, Bool.and_eq_true] at h
    have hc : ¬ isPySpace c = true := by
      have h1 := h.1
      cases hic : isPySpace c
      · exact Bool.false_ne_true
      · rw [hic] at h1
        exact absurd h1 (by decide)
    intro b
    cases b
    · rw [collapseRuns_false_cons, if_neg hc, ih h.2 false]
    · rw [collapseRuns_true_cons, if_neg hc, ih h.2 false]

theorem headSat_false_of_all (p : Char → Bool) (l : List Char)
    (h : l.all (fun c => !p c) = true) : headSat p l = false := by
  cases l with
  | nil => rfl
  | cons c rest =>
    rw [List.all_cons, Bool.and_eq_true] at h
    have h1 := h.1
    cases hic : p c
    · show p c = false
      exact hic
    · rw [hic] at h1
      exact absurd h1 (by decide)

theorem lastSat_false_of_all (p : Char → Bool) (l : List Char)
    (h : l.all (fun c => !p c) = true) : lastSat p l = false := by
  induction l with
  | nil => rfl
  | cons c rest ih =>
    rw [List.all_cons, Bool.and_eq_true] at h
    cases rest with
    | nil =>
      have h1 := h.1
      cases hic : p c
      · show lastSat p [c] = false
        unfold lastSat
        rw [show ([c] : List Char).getLast? = some c from rfl]
        exact hic
      · rw [hic] at h1
        exact absurd h1 (by decide)
    | cons x xs =>
      rw [lastSat_cons_cons]
      exact ih h.2

/-! ## Equivalence of the claim-worded sanitizer with the source one -/

theorem goodChar_eq_alpha (c : Char) : goodChar c = (c.isAlpha || c.isDigit || (c == '_')) := by
  apply Bool.eq_iff_iff.mpr
  rw [goodChar_iff]
  simp only [Bool.or_eq_true, isAlpha_iff, isDigit_iff,
    show (c == '_') = isUnd c from rfl, isUnd_iff]
  tauto

theorem specReplace_eq (l : List Char) : specReplace l = replaceBad l := by
  unfold specReplace replaceBad
  apply List.map_congr_left
  intro c _
  rw [goodChar_eq_alpha]

theorem headD_eq_headSat (m : List Char) : (m.headD ' ' == '_') = headSat isUnd m := by
  cases m with
  | nil => rfl
  | cons c rest => rfl

theorem specCollapse_cons (c : Char) (rest : List Char) :
    specCollapse (c :: rest) =
      if (c == '_') && ((specCollapse rest).headD ' ' == '_') then specCollapse rest
      else c :: specCollapse rest := rfl

theorem collapseRuns_eq_spec (l : List Char) :
    collapseRuns isUnd false l = specCollapse l ∧
      collapseRuns isUnd true l =
        (if headSat isUnd (specCollapse l) then (specCollapse l).tail else specCollapse l) := by
  induction l with
  | nil => exact ⟨rfl, rfl⟩
  | cons c rest ih =>
    obtain ⟨ih0, ih1⟩ := ih
    by_cases hc : isUnd c = true
    · have hc' : (c == '_') = true := hc
      by_cases hh : headSat isUnd (specCollapse rest) = true
      · have hrest : specCollapse (c :: rest) = specCollapse rest := by
          rw [specCollapse_cons, headD_eq_headSat, hc', hh]
          rfl
        constructor
        · rw [collapseRuns_false_cons, if_pos hc, ih1, if_pos hh, hrest]
          cases hsc : specCollapse rest with
          | nil => rw [hsc] at hh; exact absurd hh (by simp [headSat])
          | cons x xs =>
            rw [hsc] at hh
            have : x = '_' := beq_iff_eq.mp hh
            rw [this]
            rfl
        · rw [collapseRuns_true_cons, if_pos hc, ih1, if_pos hh, hrest, if_pos hh]
      · have hh' : headSat isUnd (specCollapse rest) = false := Bool.not_eq_true _ |>.mp hh
        have hrest : specCollapse (c :: rest) = c :: specCollapse rest := by
          rw [specCollapse_cons, headD_eq_headSat, hh', Bool.and_false]
          rfl
        have hhead : headSat isUnd (specCollapse (c :: rest)) = true := by
          rw [hrest]
          exact hc
        constructor
        · rw [collapseRuns_false_cons, if_pos hc, ih1, if_neg hh, hrest]
          have : c = '_' := beq_iff_eq.mp hc
          rw [this]
        · rw [collapseRuns_true_cons, if_pos hc, ih1, if_neg hh, hrest]
          rw [show headSat isUnd (c :: specCollapse rest) = isUnd c from rfl, hc]
          rw [if_pos rfl]
          rfl
    · have hc' : (c == '_') = false := Bool.not_eq_true _ |>.mp hc
      have hrest : specCollapse (c :: rest) = c :: specCollapse rest := by
        rw [specCollapse_cons, hc', Bool.false_and]
        rfl
      have hhead : headSat isUnd (specCollapse (c :: rest)) = false := by
        rw [hrest]
        exact hc'
      constructor
      · rw [collapseRuns_false_cons, if_neg hc, ih0, hrest]
      · rw [collapseRuns_true_cons, if_neg hc, ih0, hrest]
        rw [show headSat isUnd (c :: specCollapse rest) = isUnd c from rfl]
        rw [if_neg hc]

theorem dropTrailing_eq_rev (p : Char → Bool) (l : List Char) :
    dropTrailing p l = (l.reverse.dropWhile p).reverse := by
  induction l with
  | nil => rfl
  | cons c rest ih =>
    rw [dropTrailing_cons, List.reverse_cons, List.dropWhile_append]
    by_cases hE : (rest.reverse.dropWhile p).isEmpty = true
    · have hnil : rest.reverse.dropWhile p = [] := List.isEmpty_iff.mp hE
      have hdt : dropTrailing p rest = [] := by rw [ih, hnil]; rfl
      rw [if_pos hE, hdt]
      cases hpc : p c
      · simp [hpc, List.dropWhile_cons]
      · simp [hpc, List.dropWhile_cons]
    · have hne : rest.reverse.dropWhile p ≠ [] := fun h => hE (by rw [h]; rfl)
      have hdtE : (dropTrailing p rest).isEmpty = false := by
        rw [ih]
        cases hcase : rest.reverse.dropWhile p with
        | nil => exact absurd hcase hne
        | cons x xs => rw [List.reverse_cons]; cases xs.reverse <;> rfl
      rw [if_neg hE, hdtE, Bool.and_false, if_neg Bool.false_ne_true, List.reverse_append, ih]
      rfl

theorem specStrip_eq (l : List Char) : specStrip l = pyStrip isUnd l := by
  unfold specStrip pyStrip
  rw [dropTrailing_eq_rev]

/-- Claim C4 (amended, theorem): the column sanitizer clean_column_name
performs exactly the replace, collapse, strip and lower-case steps the
claim describes, for every input string. -/
theorem C4_sanitizer_spec_amended : ∀ s : String, clean_column_name s = specSanitize s := by
  intro s
  unfold clean_column_name specSanitize
  rw [specReplace_eq, (collapseRuns_eq_spec (replaceBad s.toList)).1, specStrip_eq]

/-- Claim C4 (counterexample): the importer revision table-name sanitizer
does not perform the claimed replacement: on the input A-b it keeps the
hyphen and the capital letter, while the claimed algorithm yields a_b. -/
theorem C4_counterexample_table_name :
    sanitize_table_name "A-b" = "A-b" ∧ specSanitize "A-b" = "a_b" ∧
      decide (sanitize_table_name "A-b" = specSanitize "A-b") = false := by
  refine ⟨by decide, by decide, by decide⟩

/-! ## The output invariant of clean_column_name -/

theorem cleanList_invariant (l : List Char) :
    ((pyStrip isUnd (collapseRuns isUnd false (replaceBad l))).map Char.toLower).all outChar = true ∧
    headSat isUnd ((pyStrip isUnd (collapseRuns isUnd false (replaceBad l))).map Char.toLower) = false ∧
    lastSat isUnd ((pyStrip isUnd (collapseRuns isUnd false (replaceBad l))).map Char.toLower) = false ∧
    noDouble ((pyStrip isUnd (collapseRuns isUnd false (replaceBad l))).map Char.toLower) = true := by
  have hA : (replaceBad l).all goodChar = true := replaceBad_all_good l
  have hB : (collapseRuns isUnd false (replaceBad l)).all goodChar = true :=
    collapseRuns_all isUnd goodChar (by decide) (replaceBad l) false hA
  have hBnd : noDouble (collapseRuns isUnd false (replaceBad l)) = true :=
    (collapseRuns_und_invariant (replaceBad l)).1
  have hC : (pyStrip isUnd (collapseRuns isUnd false (replaceBad l))).all goodChar = true :=
    pyStrip_all isUnd goodChar _ hB
  have hCnd : noDouble (pyStrip isUnd (collapseRuns isUnd false (replaceBad l))) = true :=
    pyStrip_noDouble isUnd _ hBnd
  have hCh : headSat isUnd (pyStrip isUnd (collapseRuns isUnd false (replaceBad l))) = false :=
    pyStrip_head isUnd _
  have hCl : lastSat isUnd (pyStrip isUnd (collapseRuns isUnd false (replaceBad l))) = false :=
    pyStrip_last isUnd _
  refine ⟨map_toLower_all_out _ hC, ?_, ?_, ?_⟩
  · rw [headSat_map_toLower]
    exact hCh
  · rw [lastSat_map_toLower]
    exact hCl
  · rw [noDouble_map_toLower]
    exact hCnd

/-- Claim C9 (theorem): for every input string the sanitizer output
contains only lowercase letters, digits and underscores, does not start
or end with an underscore, and has no two consecutive underscores. -/
theorem C9_sanitizer_output_invariant :
    ∀ s : String,
      (clean_column_name s).toList.all outChar = true ∧
      headSat isUnd (clean_column_name s).toList = false ∧
      lastSat isUnd (clean_column_name s).toList = false ∧
      noDouble (clean_column_name s).toList = true := by
  intro s
  exact cleanList_invariant s.toList

/-! ## Idempotence of both sanitizers -/

theorem cleanList_id (r : List Char)
    (hall : r.all outChar = true) (hh : headSat isUnd r = false)
    (hl : lastSat isUnd r = false) (hnd : noDouble r = true) :
    (pyStrip isUnd (collapseRuns isUnd false (replaceBad r))).map Char.toLower = r := by
  have hgood : r.all goodChar = true := by
    rw [List.all_eq_true] at hall ⊢
    exact fun c hc => goodChar_of_outChar (hall c hc)
  rw [replaceBad_id r hgood, (collapseRuns_und_id r hnd).1, pyStrip_id isUnd r hh hl,
    map_toLower_id r hall]

theorem sanitize_table_name_list_nospace (s : String) :
    (collapseRuns isPySpace false (pyStrip isPySpace s.toList)).all (fun c => !isPySpace c) = true :=
  collapseRuns_no_space _ false

/-- Claim C5 (theorem): both sanitizers of the repository are idempotent,
and both are total with empty output on the empty string. -/
theorem C5_sanitizer_idempotent_total :
    (∀ s : String, clean_column_name (clean_column_name s) = clean_column_name s) ∧
    (∀ s : String, sanitize_table_name (sanitize_table_name s) = sanitize_table_name s) ∧
    clean_column_name "" = "" ∧ sanitize_table_name "" = "" := by
  refine ⟨?_, ?_, by decide, by decide⟩
  · intro s
    obtain ⟨hall, hh, hl, hnd⟩ := cleanList_invariant s.toList
    show String.mk ((pyStrip isUnd (collapseRuns isUnd false (replaceBad (clean_column_name s).toList))).map Char.toLower) = clean_column_name s
    rw [show (clean_column_name s).toList = (pyStrip isUnd (collapseRuns isUnd false (replaceBad s.toList))).map Char.toLower from rfl]
    rw [cleanList_id _ hall hh hl hnd]
    rfl
  · intro s
    have hns := sanitize_table_name_list_nospace s
    show String.mk (collapseRuns isPySpace false (pyStrip isPySpace (sanitize_table_name s).toList)) = sanitize_table_name s
    rw [show (sanitize_table_name s).toList = collapseRuns isPySpace false (pyStrip isPySpace s.toList) from rfl]
    rw [pyStrip_id isPySpace _ (headSat_false_of_all _ _ hns) (lastSat_false_of_all _ _ hns)]
    rw [collapseRuns_nospace_id _ hns false]
    rfl

/-! ## Claim C6: the null normalizer -/

theorem normalizeCell_eq (c : Cell) :
    cleanCell (naCell dhNaTokens c) = if isAbsentSentinel c then Cell.null else c := by
  cases c with
  | str s =>
    show cleanCell (if dhNaTokens.contains s then Cell.nan else Cell.str s) = _
    by_cases hs : dhNaTokens.contains s = true
    · rw [if_pos hs]
      have : isAbsentSentinel (Cell.str s) = true := by
        have := hs
        unfold dhNaTokens at this
        simp only [List.contains_cons, List.contains_nil, Bool.or_false] at this
        exact this
      rw [this, if_pos rfl]
      rfl
    · rw [if_neg hs]
      have : isAbsentSentinel (Cell.str s) = false := by
        cases habs : isAbsentSentinel (Cell.str s)
        · rfl
        · exfalso
          apply hs
          unfold dhNaTokens
          simp only [List.contains_cons, List.contains_nil, Bool.or_false]
          exact habs
      rw [this, if_neg Bool.false_ne_true]
      rfl
  | null => rfl
  | nan => rfl
  | naT => rfl
  | int n => rfl
  | float q => rfl
  | bool b => rfl

/-- Claim C6 (theorem): the normalizer replaces exactly the absent-value
sentinels (empty string, NA, NULL, NaN, NaT and the canonical absent
value itself), in every cell of every column, with the canonical absent
value, and leaves every other value, including the integer 0, boolean
false, and non-sentinel non-empty strings, unchanged. -/
theorem C6_normalize_sentinels :
    (∀ c : Cell, cleanCell (naCell dhNaTokens c) = if isAbsentSentinel c then Cell.null else c) ∧
    (∀ df : Dataframe,
      (normalize_dataset df).rows =
        df.rows.map (fun r => r.map (fun c => if isAbsentSentinel c then Cell.null else c))) := by
  refine ⟨normalizeCell_eq, ?_⟩
  intro df
  show ((applyNaValues dhNaTokens df).rows.map (fun r => r.map cleanCell)) = _
  show ((df.rows.map (fun r => r.map (naCell dhNaTokens))).map (fun r => r.map cleanCell)) = _
  rw [List.map_map]
  apply List.map_congr_left
  intro r _
  show (r.map (naCell dhNaTokens)).map cleanCell = _
  rw [List.map_map]
  apply List.map_congr_left
  intro c _
  exact normalizeCell_eq c

/-! ## Claim C3: the keys of the mapping each loader returns -/

/-- Claim C3 (amended, theorem): for a supported file, read_file keys the
CSV dataset by the file stem and a spreadsheet by its sheet names, with
the extension matched case-insensitively; MainWindow.load_file keys a
spreadsheet by its sheet names too, but keys the CSV dataset by the
constant string CSV Data instead of the file stem. -/
theorem C3_load_keys_amended :
    ∀ (path : String) (df : Dataframe) (sheets : List (String × Dataframe)),
      (lowerStr (splitext path).2 = ".csv" →
        (read_file path (FileContent.csv df)).map (fun m => m.map (fun q => q.1)) =
          Except.ok [(splitext (basename path)).1]) ∧
      ((lowerStr (splitext path).2 = ".xls" ∨ lowerStr (splitext path).2 = ".xlsx") →
        (read_file path (FileContent.excel sheets)).map (fun m => m.map (fun q => q.1)) =
          Except.ok (sheets.map (fun q => q.1))) ∧
      (lowerStr (pathSuffix path) = ".csv" →
        (mw_load_file path (FileContent.csv df)).map (fun m => m.map (fun q => q.1)) =
          Except.ok ["CSV Data"]) ∧
      ((lowerStr (pathSuffix path) = ".xlsx" ∨ lowerStr (pathSuffix path) = ".xls") →
        (mw_load_file path (FileContent.excel sheets)).map (fun m => m.map (fun q => q.1)) =
          Except.ok (sheets.map (fun q => q.1))) := by
  intro path df sheets
  refine ⟨?_, ?_, ?_, ?_⟩
  · intro h
    have hrf : read_file path (FileContent.csv df) =
        Except.ok [((splitext (basename path)).1, clean_dataframe (applyNaValues rfNaTokens df))] := by
      unfold read_file
      rw [h]
      rfl
    rw [hrf]
    rfl
  · rintro (h | h) <;>
      · have hrf : read_file path (FileContent.excel sheets) =
            Except.ok (sheets.map (fun q => (q.1, clean_dataframe (applyNaValues rfNaTokens q.2)))) := by
          unfold read_file
          rw [h]
          rfl
        rw [hrf]
        simp only [Except.map, List.map_map]
        rfl
  · intro h
    have hmw : mw_load_file path (FileContent.csv df) = Except.ok [("CSV Data", df)] := by
      unfold mw_load_file
      rw [h]
      rfl
    rw [hmw]
    rfl
  · rintro (h | h) <;>
      · have hmw : mw_load_file path (FileContent.excel sheets) = Except.ok sheets := by
          unfold mw_load_file
          rw [h]
          rfl
        rw [hmw]
        rfl

/-- Claim C3 (counterexample): MainWindow.load_file keys a CSV dataset by
the constant CSV Data, not by the file stem data. -/
theorem C3_counterexample_csv_data_key :
    mw_load_file "data.csv" (FileContent.csv emptyDf) = Except.ok [("CSV Data", emptyDf)] ∧
    pathStem "data.csv" = "data" ∧
    decide ((["CSV Data"] : List String) = ["data"]) = false :=
  ⟨by rfl, by decide, by decide⟩

/-! ## Claim C2: unsupported extensions -/

/-- Claim C2 (amended, theorem): on a path whose extension is not csv,
xls or xlsx, read_file fails with the unsupported-file error, producing
no dataset; DataHandler.load_file however does not fail: it returns the
accumulated mapping unchanged, adds no dataset, emits no log line, and
leaves its state exactly as before the call. -/
theorem C2_unsupported_extension_amended :
    ∀ (st : HandlerState) (path : String) (content : FileContent),
      lowerStr (splitext path).2 ≠ ".csv" →
      lowerStr (splitext path).2 ≠ ".xls" →
      lowerStr (splitext path).2 ≠ ".xlsx" →
      lowerStr (pathSuffix path) ≠ ".csv" →
      lowerStr (pathSuffix path) ≠ ".xlsx" →
      lowerStr (pathSuffix path) ≠ ".xls" →
      read_file path content = Except.error "Unsupported file type" ∧
      dh_load_file st path content = Except.ok (st, st.dataframes) := by
  intro st path content h1 h2 h3 h4 h5 h6
  constructor
  · unfold read_file
    rw [if_neg (fun hb => h1 (beq_iff_eq.mp hb))]
    rw [if_neg (fun hb => by
      rcases Bool.or_eq_true _ _ |>.mp hb with hx | hx
      · exact h2 (beq_iff_eq.mp hx)
      · exact h3 (beq_iff_eq.mp hx))]
  · unfold dh_load_file
    rw [if_neg (fun hb => h4 (beq_iff_eq.mp hb))]
    rw [if_neg (fun hb => by
      rcases Bool.or_eq_true _ _ |>.mp hb with hx | hx
      · exact h5 (beq_iff_eq.mp hx)
      · exact h6 (beq_iff_eq.mp hx))]

/-- Claim C2 (witness): the amended theorem applied to the concrete path
unsupported.txt and a handler holding one dataset from an earlier call. -/
theorem C2_unsupported_extension_witness :
    read_file "unsupported.txt" (FileContent.csv emptyDf) = Except.error "Unsupported file type" ∧
    dh_load_file stPrior "unsupported.txt" (FileContent.csv emptyDf) =
      Except.ok (stPrior, stPrior.dataframes) :=
  C2_unsupported_extension_amended stPrior "unsupported.txt" (FileContent.csv emptyDf)
    (by decide) (by decide) (by decide) (by decide) (by decide) (by decide)

/-- Claim C2 (counterexample): DataHandler.load_file on unsupported.txt
returns normally with the accumulated dict of a prior call, so the load
does not fail with any error. -/
theorem C2_counterexample_txt_load_succeeds :
    dh_load_file stPrior "unsupported.txt" (FileContent.csv emptyDf) =
      Except.ok (stPrior, stPrior.dataframes) ∧
    stPrior.dataframes = [("prior", dfA)] ∧
    exceptIsOk (dh_load_file stPrior "unsupported.txt" (FileContent.csv emptyDf)) = true :=
  ⟨by rfl, by decide, by rfl⟩

/-! ## Claim C8: freshness versus accumulation across load calls -/

theorem find?_map_overwrite (l : List (String × Dataframe)) (k k' : String) (v' : Dataframe)
    (h : ¬ k = k') :
    (l.map (fun q => if q.1 == k' then (k', v') else q)).find? (fun q => q.1 == k) =
      l.find? (fun q => q.1 == k) := by
  induction l with
  | nil => rfl
  | cons q rest ih =>
    rw [List.map_cons, List.find?_cons, List.find?_cons]
    by_cases hq : (q.1 == k') = true
    · rw [if_pos hq]
      have h1 : (k' == k) = false := beq_eq_false_iff_ne.mpr (fun he => h he.symm)
      have h2 : (q.1 == k) = false := by
        rw [beq_eq_false_iff_ne]
        intro he
        exact h (((beq_iff_eq.mp hq) ▸ he : k' = k)).symm
      rw [show ((k', v').1 == k) = (k' == k) from rfl, h1, h2]
      exact ih
    · rw [if_neg hq]
      cases hqk : (q.1 == k) <;> [exact ih; rfl]

theorem find?_append_single (l : List (String × Dataframe)) (k k' : String) (v' : Dataframe)
    (h : ¬ k = k') :
    (l ++ [(k', v')]).find? (fun q => q.1 == k) = l.find? (fun q => q.1 == k) := by
  rw [List.find?_append]
  have h1 : ([((k', v'))].find? (fun q => q.1 == k)) = none := by
    rw [List.find?_cons]
    rw [show ((k', v').1 == k) = (k' == k) from rfl,
      beq_eq_false_iff_ne.mpr (fun he => h he.symm)]
    rfl
  rw [h1]
  cases l.find? (fun q => q.1 == k) <;> rfl

theorem lookup_updateAssoc_ne (l : List (String × Dataframe)) (k k' : String) (v' : Dataframe)
    (h : ¬ k = k') : lookupAssoc (updateAssoc l k' v') k = lookupAssoc l k := by
  unfold updateAssoc lookupAssoc
  by_cases ha : (l.any fun q => q.1 == k') = true
  · rw [if_pos ha, find?_map_overwrite l k k' v' h]
  · rw [if_neg ha, find?_append_single l k k' v' h]

/-- Claim C8 (amended, theorem): read_file builds its result mapping
fresh on every call, containing exactly the dataset of the given file;
DataHandler.load_file instead accumulates into the handler dict, and the
mapping it returns still contains every entry of any prior call whose
key differs from the new file stem. -/
theorem C8_load_freshness_amended :
    ∀ (st : HandlerState) (path : String) (df : Dataframe) (k : String) (v : Dataframe),
      lowerStr (pathSuffix path) = ".csv" →
      lowerStr (splitext path).2 = ".csv" →
      lookupAssoc st.dataframes k = some v →
      ¬ k = pathStem path →
      (read_file path (FileContent.csv df) =
        Except.ok [((splitext (basename path)).1, clean_dataframe (applyNaValues rfNaTokens df))]) ∧
      (∃ res, dh_load_file st path (FileContent.csv df) = Except.ok res ∧
        lookupAssoc res.2 k = some v) := by
  intro st path df k v h1 h2 hk hne
  constructor
  · unfold read_file
    rw [h2]
    rfl
  · have hdh : dh_load_file st path (FileContent.csv df) =
        Except.ok
          ({ dataframes := updateAssoc st.dataframes (pathStem path) (applyNaValues dhNaTokens df),
             logs := st.logs ++ [LogLine.info ("Successfully loaded CSV file: " ++ pathStem path)] },
           updateAssoc st.dataframes (pathStem path) (applyNaValues dhNaTokens df)) := by
      unfold dh_load_file
      rw [h1]
      rfl
    refine ⟨_, hdh, ?_⟩
    show lookupAssoc (updateAssoc st.dataframes (pathStem path) (applyNaValues dhNaTokens df)) k = some v
    rw [lookup_updateAssoc_ne st.dataframes k (pathStem path) _ hne]
    exact hk

/-- Claim C8 (witness): the amended theorem applied to a handler holding
the dataset a from an earlier a.csv load, then loading b.csv. -/
theorem C8_load_freshness_witness :
    (read_file "b.csv" (FileContent.csv dfB) =
      Except.ok [((splitext (basename "b.csv")).1, clean_dataframe (applyNaValues rfNaTokens dfB))]) ∧
    (∃ res, dh_load_file stA "b.csv" (FileContent.csv dfB) = Except.ok res ∧
      lookupAssoc res.2 "a" = some (applyNaValues dhNaTokens dfA)) :=
  C8_load_freshness_amended stA "b.csv" dfB "a" (applyNaValues dhNaTokens dfA)
    (by decide) (by decide) (by rfl) (by decide)

/-- Claim C8 (counterexample): loading a.csv and then b.csv through the
same DataHandler returns a mapping whose keys are a and b, so the second
load call returns a dataset carried over from the first call. -/
theorem C8_counterexample_accumulated_mapping :
    dh_load_file { dataframes := [], logs := [] } "a.csv" (FileContent.csv dfA) =
      Except.ok (stA, stA.dataframes) ∧
    (dh_load_file stA "b.csv" (FileContent.csv dfB)).map (fun r => r.2.map (fun q => q.1)) =
      Except.ok ["a", "b"] ∧
    decide ((["a", "b"] : List String) = ["b"]) = false :=
  ⟨by rfl, by rfl, by decide⟩

/-! ## Claim C1: the GUI import path writes every row twice -/

/-- Claim C1 (code bug, theorem): importing the one-row dataset sheetDf
through MainWindow.import_data leaves the destination table sheet1 with
two rows, because create_table_from_df already inserts every row with
to_sql replace and the batch loop appends them all again; the importer
path import_dataframes of importer.py writes the same dataset once. -/
theorem C1_replace_roundtrip_code_bug :
    ((import_data emptyDb "Sheet1" sheetDf).1 "sheet1").map (fun t => t.rows.length) = some 2 ∧
    sheetDf.rows.length = 1 ∧
    ((import_dataframes emptyDb [("Sheet1", sheetDf)]).1 "Sheet1").map (fun t => t.rows.length) =
      some 1 :=
  ⟨by rfl, by rfl, by rfl⟩

/-! ## Claim C7: batching and progress reporting -/

theorem import_fold_progress (tn : String) (rows : List (List Cell)) :
    ∀ (n : Nat) (db0 : Database),
      ∃ dbn : Database,
        ((List.range n).map (fun i => i * 1000)).foldl (importBatchStep tn rows) (db0, 0, []) =
          (dbn, min (n * 1000) rows.length,
           (List.range n).map (fun i => min ((i + 1) * 1000) rows.length * 80 / rows.length + 20)) := by
  intro n
  induction n with
  | zero =>
    intro db0
    exact ⟨db0, by simp⟩
  | succ n ih =>
    intro db0
    obtain ⟨dbn, hn⟩ := ih db0
    refine ⟨dbAppend dbn tn ((rows.drop (n * 1000)).take 1000), ?_⟩
    rw [List.range_succ, List.map_append, List.foldl_append, hn]
    have hlen : ((rows.drop (n * 1000)).take 1000).length = min 1000 (rows.length - n * 1000) := by
      rw [List.length_take, List.length_drop]
    show (_, min (n * 1000) rows.length + ((rows.drop (n * 1000)).take 1000).length,
        _ ++ [(min (n * 1000) rows.length + ((rows.drop (n * 1000)).take 1000).length) * 80 / rows.length + 20]) = _
    rw [List.map_append, hlen]
    have harith : min (n * 1000) rows.length + min 1000 (rows.length - n * 1000) =
        min ((n + 1) * 1000) rows.length := by omega
    rw [harith]
    rfl

theorem import_data_progress_eq (db : Database) (sheet : String) (df : Dataframe) :
    (import_data db sheet df).2 = 0 :: 20 :: (importProgress df.rows.length ++ [100]) := by
  obtain ⟨dbn, hf⟩ := import_fold_progress (clean_column_name sheet) df.rows
    ((df.rows.length + 999) / 1000)
    (create_table_from_df db { columns := df.columns.map clean_column_name, rows := df.rows }
      (clean_column_name sheet))
  show (((batchStarts df.rows.length).foldl
      (importBatchStep (clean_column_name sheet) df.rows)
      (create_table_from_df db { columns := df.columns.map clean_column_name, rows := df.rows }
        (clean_column_name sheet), 0, [])).1,
    0 :: 20 :: (((batchStarts df.rows.length).foldl
      (importBatchStep (clean_column_name sheet) df.rows)
      (create_table_from_df db { columns := df.columns.map clean_column_name, rows := df.rows }
        (clean_column_name sheet), 0, [])).2.2 ++ [100])).2 =
    0 :: 20 :: (importProgress df.rows.length ++ [100])
  rw [show batchStarts df.rows.length =
      (List.range ((df.rows.length + 999) / 1000)).map (fun i => i * 1000) from rfl, hf]
  rfl

theorem rows2500_length : df2500.rows.length = 2500 := by
  rw [show df2500.rows = List.replicate 2500 [] from rfl, List.length_replicate]

/-- Claim C7 (amended, theorem): rows are written in batches of at most
1000 (each full batch 1000, the last one the remainder), and the
progress reported after each batch is int(rows_written / total * 80) +
20 rather than the plain fraction rows_written / total; the full emitted
sequence starts with 0, shows 20 after table creation, and ends with a
final 100; for 2500 rows the three batches have sizes 1000, 1000, 500
and report 52, 84 and 100. -/
theorem C7_batching_progress_amended :
    (∀ (db : Database) (sheet : String) (df : Dataframe),
      (import_data db sheet df).2 = 0 :: 20 :: (importProgress df.rows.length ++ [100])) ∧
    (∀ rows : List (List Cell),
      (batchesOf rows).all (fun b => decide (b.length ≤ 1000)) = true) ∧
    (batchesOf df2500.rows).map List.length = [1000, 1000, 500] ∧
    importProgress 2500 = [52, 84, 100] := by
  refine ⟨import_data_progress_eq, ?_, ?_, by rfl⟩
  · intro rows
    rw [List.all_eq_true]
    intro b hb
    rcases List.mem_map.mp hb with ⟨i, _, rfl⟩
    rw [decide_eq_true_eq, List.length_take]
    omega
  · have hbs : batchStarts df2500.rows.length = [0, 1000, 2000] := by
      rw [rows2500_length]
      rfl
    unfold batchesOf
    rw [hbs]
    simp only [List.map_cons, List.map_nil, List.length_take, List.length_drop, rows2500_length]
    rfl

/-- Claim C7 (counterexample): for the 2500-row dataset the code reports
0, 20, 52, 84, 100, 100, not the claimed fraction sequence 0, 40, 80,
100; in particular after the first 1000-row batch it reports 52 while
1000 rows of 2500 are 40 percent. -/
theorem C7_counterexample_progress_values :
    (import_data emptyDb "Sheet1" df2500).2 = [0, 20, 52, 84, 100, 100] ∧
    decide (([0, 20, 52, 84, 100, 100] : List Nat) = [0, 40, 80, 100]) = false ∧
    (1000 * 100 / 2500 : Nat) = 40 ∧
    decide ((52 : Nat) = 40) = false := by
  refine ⟨?_, by decide, by rfl, by decide⟩
  rw [import_data_progress_eq, rows2500_length]
  rfl

/-! ## Claim C10: repeated import is idempotent on the backend -/

theorem import_dataframes_fst :
    ∀ (dfs_dict : List (String × Dataframe)) (db : Database) (s : List String),
      (dfs_dict.foldl
        (fun acc q =>
          let table_name := sanitize_table_name q.1
          (dbSet acc.1 table_name (toImportedTable q.2),
           acc.2 ++ ["Imported " ++ toString q.2.rows.length ++ " rows into " ++ table_name]))
        (db, s)).1 = importTables db dfs_dict := by
  intro dfs_dict
  induction dfs_dict with
  | nil => intro db s; rfl
  | cons q rest ih =>
    intro db s
    exact ih (dbSet db (sanitize_table_name q.1) (toImportedTable q.2)) _

theorem importTables_untouched :
    ∀ (dfs_dict : List (String × Dataframe)) (db : Database) (k : String),
      (∀ q ∈ dfs_dict, ¬ sanitize_table_name q.1 = k) → importTables db dfs_dict k = db k := by
  intro dfs_dict
  induction dfs_dict with
  | nil => intro db k _; rfl
  | cons q rest ih =>
    intro db k h
    show importTables (dbSet db (sanitize_table_name q.1) (toImportedTable q.2)) rest k = db k
    rw [ih _ k (fun q' hq' => h q' (List.mem_cons_of_mem q hq'))]
    unfold dbSet
    rw [if_neg (fun hb => h q (List.mem_cons_self q rest) (beq_iff_eq.mp hb).symm)]

theorem importTables_congr :
    ∀ (dfs_dict : List (String × Dataframe)) (db db' : Database),
      (∀ k, db k = db' k ∨ ∃ q ∈ dfs_dict, sanitize_table_name q.1 = k) →
      importTables db dfs_dict = importTables db' dfs_dict := by
  intro dfs_dict
  induction dfs_dict with
  | nil =>
    intro db db' h
    funext k
    rcases h k with he | ⟨q, hq, _⟩
    · exact he
    · exact absurd hq (List.not_mem_nil q)
  | cons q rest ih =>
    intro db db' h
    show importTables (dbSet db (sanitize_table_name q.1) (toImportedTable q.2)) rest =
      importTables (dbSet db' (sanitize_table_name q.1) (toImportedTable q.2)) rest
    apply ih
    intro k
    by_cases hk : k = sanitize_table_name q.1
    · left
      unfold dbSet
      rw [if_pos (beq_iff_eq.mpr hk), if_pos (beq_iff_eq.mpr hk)]
    · rcases h k with he | ⟨q', hq', hsq⟩
      · left
        unfold dbSet
        rw [if_neg (fun hb => hk (beq_iff_eq.mp hb)), if_neg (fun hb => hk (beq_iff_eq.mp hb))]
        exact he
      · rcases List.mem_cons.mp hq' with rfl | hmem
        · exact absurd hsq.symm hk
        · right
          exact ⟨q', hmem, hsq⟩

/-- Claim C10 (theorem): importing the same dict of dataframes twice in
succession through import_dataframes leaves the backend exactly as a
single import does: every table is written with replace semantics under a name
that is a pure function of the sheet name, so the second import
overwrites each table with the same contents. -/
theorem C10_import_idempotent :
    ∀ (db : Database) (dfs_dict : List (String × Dataframe)),
      (import_dataframes (import_dataframes db dfs_dict).1 dfs_dict).1 =
        (import_dataframes db dfs_dict).1 := by
  intro db dfs_dict
  have h1 : (import_dataframes db dfs_dict).1 = importTables db dfs_dict :=
    import_dataframes_fst dfs_dict db []
  have h2 : (import_dataframes (importTables db dfs_dict) dfs_dict).1 =
      importTables (importTables db dfs_dict) dfs_dict :=
    import_dataframes_fst dfs_dict (importTables db dfs_dict) []
  rw [h1, h2]
  rw [importTables_congr dfs_dict (importTables db dfs_dict) db (fun k => by
    by_cases hex : ∃ q ∈ dfs_dict, sanitize_table_name q.1 = k
    · exact Or.inr hex
    · left
      exact importTables_untouched dfs_dict db k (fun q hq he => hex ⟨q, hq, he⟩))]
